import Mathlib

/-!
Verification of the attendance state engine of `ieee-office-backend`
(`main.go`) against its natural-language specification.

The embedding is a shallow one: the Go functions that the claims are about
are translated into executable Lean definitions over explicit state.

Modelling conventions, justified from the source:
* `time.Time` values are modelled as `Nat` clock ticks.  Every call to
  `time.Now()` in the source is modelled as reading a strictly increasing
  tick counter threaded through the state (Go's `time.Now()` carries a
  monotonic-clock component, so successive readings within one process are
  distinct and increasing); where a claim depends on several `time.Now()`
  readings being one instant, this model makes the distinct readings visible.
* the Go map `currentAttendees : map[string]time.Time` is modelled as an
  association list `AttendeeMap`; `mapSet` is Go map assignment
  (`m[k] = v`), `mapDel` is `delete(m, k)`, `lookupA` is `v, ok := m[k]`.
* the SQLite `sessions` table is modelled as an append-only `List Session`
  (`saveSessionToDB` only ever executes a single `INSERT`).
* the snapshot file `data/current_attendees.json` is modelled as
  `Option AttendeeMap` (`none` = file absent); `os.WriteFile` replaces it.
* fallible persistence (`saveSessionToDB`, `saveCurrentAttendees`) takes an
  explicit `ok : Bool` oracle for the I/O outcome; `true` means the write
  succeeded, `false` means it returned an error.
* the `sync.RWMutex` makes each locked region of the source an atomic step;
  code that releases the lock between a read and a dependent write is
  therefore modelled as two separate atomic steps (see `toggleStep`).
-/

/-- Tag identifiers (`uid` strings sent by the scanner). -/
abbrev Uid := String

/-- Timestamps, as ticks of the modelled monotonic clock. -/
abbrev Time := Nat

/-- `Member` from `main.go`: a person with a registered RFID tag. -/
structure Member where
  id : Nat
  name : String
  uid : Uid
  discordId : String
deriving Repr, DecidableEq

/-- A completed visit, i.e. a row of the `sessions` table written by
`saveSessionToDB(memberID, signin, signout)`. -/
structure Session where
  memberId : Nat
  signinTime : Time
  signoutTime : Time
deriving Repr, DecidableEq

/-- The `currentAttendees` Go map (`map[string]time.Time`), as an
association list with at most one binding per key in any state the code
constructs. -/
abbrev AttendeeMap := List (Uid × Time)

/-- Go map read `v, ok := m[k]` (generic over the value type). -/
def lookupA {α : Type} (k : Uid) : List (Uid × α) → Option α
  | [] => none
  | p :: rest => if p.1 = k then some p.2 else lookupA k rest

/-- Go map assignment `m[k] = v`: replace the binding if present,
otherwise add one. -/
def mapSet (m : AttendeeMap) (k : Uid) (v : Time) : AttendeeMap :=
  match m with
  | [] => [(k, v)]
  | (k', v') :: rest => if k' = k then (k, v) :: rest else (k', v') :: mapSet rest k v

/-- Go map deletion `delete(m, k)`. -/
def mapDel (m : AttendeeMap) (k : Uid) : AttendeeMap :=
  match m with
  | [] => []
  | (k', v') :: rest => if k' = k then mapDel rest k else (k', v') :: mapDel rest k

/-- Go zero-value read `userDB[uid]` for a possibly missing key: the zero
`Member` when the uid is not cached. -/
def memberD (udb : List (Uid × Member)) (k : Uid) : Member :=
  match lookupA k udb with
  | some m => m
  | none => ⟨0, "", "", ""⟩

/-- The global mutable state of the server that the engine claims touch:
the member cache `userDB`, the scan-history ring buffer, the
`currentAttendees` map, the `sessions` table, the snapshot file, and the
modelled clock. -/
structure ServerState where
  userDB : List (Uid × Member)
  scanHistory : List (Uid × Time)
  currentAttendees : AttendeeMap
  sessions : List Session
  snapshotFile : Option AttendeeMap
  clock : Nat
deriving Repr, DecidableEq

/-- `saveSessionToDB` (main.go 195-200): a single `INSERT` into the
`sessions` table.  On success the row is appended; on a storage error the
table is unchanged and the error is reported. -/
def saveSessionToDB (sessions : List Session) (ok : Bool) (memberId : Nat)
    (signin signout : Time) : List Session × Bool :=
  if ok then (sessions ++ [⟨memberId, signin, signout⟩], true) else (sessions, false)

/-- `saveCurrentAttendees` (main.go 260-275): copies the map under the read
lock and overwrites the snapshot file with it.  On a storage error the file
keeps its previous contents and the error is reported. -/
def saveCurrentAttendees (m : AttendeeMap) (file : Option AttendeeMap)
    (ok : Bool) : Option AttendeeMap × Bool :=
  if ok then (some m, true) else (file, false)

/-- `recordScanEvent` (main.go 329-337): append a scan to the history and
keep only the last 10 entries. -/
def recordScanEvent (h : List (Uid × Time)) (uid : Uid) (t : Time) :
    List (Uid × Time) :=
  let h' := h ++ [(uid, t)]
  if h'.length > 10 then h'.drop (h'.length - 10) else h'

/-- `performSignIn` (main.go 339-351): store `time.Now()` for the member's
uid in `currentAttendees` under the lock, then (outside the lock) rewrite
the snapshot; a snapshot error makes the call return an error but the map
mutation stays.  The returned `Option String` is the success message
(`none` = the Go function returned an error). -/
def performSignIn (st : ServerState) (member : Member) (snapOk : Bool) :
    ServerState × Option String :=
  let t := st.clock
  let st1 := { st with
    currentAttendees := mapSet st.currentAttendees member.uid t,
    clock := st.clock + 1 }
  let saved := saveCurrentAttendees st1.currentAttendees st1.snapshotFile snapOk
  let st2 := { st1 with snapshotFile := saved.1 }
  if saved.2 then (st2, some ("Welcome, " ++ member.name ++ "!")) else (st2, none)

/-- `performSignOut` (main.go 353-371): delete the member's uid from the
map under the lock, read `time.Now()` as the sign-out time, append the
session row, then rewrite the snapshot.  Either persistence step failing
makes the call return an error, but the map deletion stays. -/
def performSignOut (st : ServerState) (member : Member) (signInTime : Time)
    (dbOk snapOk : Bool) : ServerState × Option String :=
  let st1 := { st with currentAttendees := mapDel st.currentAttendees member.uid }
  let signOutTime := st1.clock
  let st2 := { st1 with clock := st1.clock + 1 }
  let dbres := saveSessionToDB st2.sessions dbOk member.id signInTime signOutTime
  let st3 := { st2 with sessions := dbres.1 }
  if dbres.2 then
    let saved := saveCurrentAttendees st3.currentAttendees st3.snapshotFile snapOk
    let st4 := { st3 with snapshotFile := saved.1 }
    if saved.2 then (st4, some ("Goodbye, " ++ member.name ++ "!")) else (st4, none)
  else (st3, none)

/-- Outcome of a `/scan` request after the JSON body was decoded. -/
inductive ScanResp where
  | unknown : ScanResp
  | statusIn : ScanResp
  | statusOut : ScanResp
  | internalError : ScanResp
deriving Repr, DecidableEq

/-- `handleScan` (main.go 407-458), sequential semantics after JSON
decoding: record the scan event, resolve the uid in the member cache
(403 `unknown` on a miss, nothing else mutated), then read the presence of
the uid and dispatch to `performSignOut` or `performSignIn`. -/
def handleScan (st : ServerState) (uid : Uid) (dbOk snapOk : Bool) :
    ServerState × ScanResp :=
  let eventTime := st.clock
  let st1 := { st with
    clock := st.clock + 1,
    scanHistory := recordScanEvent st.scanHistory uid eventTime }
  match lookupA uid st1.userDB with
  | none => (st1, .unknown)
  | some member =>
    match lookupA uid st1.currentAttendees with
    | some signInTime =>
      let r := performSignOut st1 member signInTime dbOk snapOk
      match r.2 with
      | none => (r.1, .internalError)
      | some _ => (r.1, .statusOut)
    | none =>
      let r := performSignIn st1 member snapOk
      match r.2 with
      | none => (r.1, .internalError)
      | some _ => (r.1, .statusIn)

/-- The sign-out loop shared by `handleSignoutAll` (main.go 746-751) and
`startNightlyCleanup` (main.go 395-397): for each swept `(uid, signin)`
pair, read `time.Now()` afresh and insert one session row with
`userDB[uid].ID`.  Returns the grown table and the advanced clock. -/
def sweepSessions (udb : List (Uid × Member)) (sessions : List Session)
    (c : Nat) (l : AttendeeMap) : List Session × Nat :=
  match l with
  | [] => (sessions, c)
  | (uid, signin) :: rest =>
    sweepSessions udb (sessions ++ [⟨(memberD udb uid).id, signin, c⟩]) (c + 1) rest

/-- The rows `sweepSessions` appends for a swept map, starting at clock
tick `c`: the i-th swept identity gets end time `c + i`. -/
def sweptIntervals (udb : List (Uid × Member)) (c : Nat) (l : AttendeeMap) :
    List Session :=
  match l with
  | [] => []
  | (uid, signin) :: rest =>
    ⟨(memberD udb uid).id, signin, c⟩ :: sweptIntervals udb (c + 1) rest

/-- `handleSignoutAll` (main.go 725-757): under the lock, count and copy the
attendee map and clear it; outside the lock, rewrite the snapshot (its error
is discarded with `_ =`) and run the per-identity session loop.  Persistence
is modelled as succeeding; the returned `Nat` is the count in the response
message. -/
def handleSignoutAll (st : ServerState) : ServerState × Nat :=
  let count := st.currentAttendees.length
  let toSignOut := st.currentAttendees
  let st1 := { st with currentAttendees := [] }
  let st2 := { st1 with snapshotFile := some ([] : AttendeeMap) }
  let swept := sweepSessions st2.userDB st2.sessions st2.clock toSignOut
  ({ st2 with sessions := swept.1, clock := swept.2 }, count)

/-- Result of one iteration of the `startNightlyCleanup` loop body, after
the 4:00 AM timer has fired.  `lockHeld` is whether the goroutine still
holds the writer lock `mu` when the body falls through to the next loop
iteration. -/
structure NightlyResult where
  lockHeld : Bool
  attendees : AttendeeMap
  sessions : List Session
  snapshotFile : Option AttendeeMap
  clock : Nat
deriving Repr, DecidableEq

/-- The `startNightlyCleanup` loop body after `<-timer.C` (main.go 386-399):
`mu.Lock()`, read the count; if it is positive, copy the map, replace it
with an empty one, `mu.Unlock()`, and run the session loop; if it is zero,
nothing further happens in the body — in particular no `mu.Unlock()` and no
snapshot write is executed on either path. -/
def nightlyCleanupBody (st : ServerState) : NightlyResult :=
  let cnt := st.currentAttendees.length
  if cnt > 0 then
    let toSignOut := st.currentAttendees
    let swept := sweepSessions st.userDB st.sessions st.clock toSignOut
    ⟨false, [], swept.1, st.snapshotFile, swept.2⟩
  else
    ⟨true, st.currentAttendees, st.sessions, st.snapshotFile, st.clock⟩

/-- `ActiveAttendee` from `main.go`: one entry of the `/current` response. -/
structure ActiveAttendee where
  name : String
  signInTime : Time
deriving Repr, DecidableEq

/-- Insertion step of the sort performed by `sort.Slice` in
`handleCurrent`: place `a` before the first element it does not come
strictly after, comparing by `SignInTime`. -/
def insertByTime (a : ActiveAttendee) : List ActiveAttendee → List ActiveAttendee
  | [] => [a]
  | b :: rest =>
    if a.signInTime ≤ b.signInTime then a :: b :: rest else b :: insertByTime a rest

/-- The `sort.Slice(activeList, less = SignInTime.Before)` call of
`handleCurrent` (main.go 476-478): produce the list reordered so that
sign-in times are non-decreasing. -/
def sortByTime : List ActiveAttendee → List ActiveAttendee
  | [] => []
  | a :: rest => insertByTime a (sortByTime rest)

/-- `handleCurrent` (main.go 463-482): under the read lock build one
`ActiveAttendee` per entry of `currentAttendees` (name via `userDB[uid]`,
the Go zero value if the uid is uncached), then sort by sign-in time,
oldest first. -/
def handleCurrent (st : ServerState) : List ActiveAttendee :=
  sortByTime (st.currentAttendees.map fun p => ⟨(memberD st.userDB p.1).name, p.2⟩)

/-- What the startup read of `data/current_attendees.json` can find: no
file, a file `json.Unmarshal` rejects, or a well-formed serialized map. -/
inductive SnapshotRead where
  | missing : SnapshotRead
  | malformed : SnapshotRead
  | wellFormed : AttendeeMap → SnapshotRead

/-- `loadCurrentAttendees` (main.go 277-301): a missing file returns `nil`
with the map untouched; an unreadable or unparseable file returns the
error with the map untouched; a well-formed file replaces the map. -/
def loadCurrentAttendees (f : SnapshotRead) (current : AttendeeMap) :
    Except String AttendeeMap :=
  match f with
  | .missing => .ok current
  | .malformed => .error "unmarshal failed"
  | .wellFormed m => .ok m

/-- Outcome of the attendee-loading step of `main`: the resulting map,
whether a warning was logged, and whether startup aborted there. -/
structure StartupOutcome where
  attendees : AttendeeMap
  warned : Bool
  fatal : Bool
deriving Repr, DecidableEq

/-- The `loadCurrentAttendees` call site in `main` (main.go 966-971): an
error is logged with `log.Printf("Warning: ...")` and startup continues;
only the success path replaces the map. -/
def startupLoadAttendees (f : SnapshotRead) (current : AttendeeMap) :
    StartupOutcome :=
  match loadCurrentAttendees f current with
  | .ok m => ⟨m, false, false⟩
  | .error _ => ⟨current, true, false⟩

/-- Outcome of a `DELETE /members/id` request. -/
inductive DeleteOutcome where
  | notFound : DeleteOutcome
  | conflict : DeleteOutcome
  | deleted : DeleteOutcome
deriving Repr, DecidableEq

/-- The `SELECT uid FROM members WHERE id = ?` lookup of `handleMember`
(main.go 545-546); member ids are unique in the table. -/
def findUidById (ms : List Member) (id : Nat) : Option Uid :=
  match ms with
  | [] => none
  | m :: rest => if m.id = id then some m.uid else findUidById rest id

/-- The DELETE branch of `handleMember` (main.go 543-588): resolve the id
to a uid (404 if absent), check `currentAttendees[uid]` under the read
lock and answer 409 without deleting if the member is signed in, otherwise
run `DELETE FROM members WHERE id = ?`. -/
def handleMemberDelete (ms : List Member) (att : AttendeeMap) (id : Nat) :
    DeleteOutcome × List Member :=
  match findUidById ms id with
  | none => (.notFound, ms)
  | some uid =>
    if (lookupA uid att).isSome then (.conflict, ms)
    else (.deleted, ms.filter fun m => m.id ≠ id)

/-- Progress of one `/scan` toggle request through its two lock-protected
critical sections: `start` = about to run the presence check of main.go
435-437, `checked r` = the check read `r` and the read lock was released,
`finished d` = the conditional mutation ran and the handler answered with
status `d`. -/
inductive Phase where
  | start : Phase
  | checked : Option Time → Phase
  | finished : String → Phase
deriving Repr, DecidableEq

/-- The shared state the interleaved toggle threads contend on. -/
structure Shared where
  attendees : AttendeeMap
  sessions : List Session
  clock : Nat
deriving Repr, DecidableEq

/-- One atomic step of the toggle path of `handleScan` as written: the
presence check (main.go 435-437) runs under `mu.RLock`, which is released
before `performSignIn`/`performSignOut` take `mu.Lock` for the map write,
so check and write are two separate atomic steps rather than one. -/
def toggleStep (udb : List (Uid × Member)) (sh : Shared) (uid : Uid)
    (ph : Phase) : Shared × Phase :=
  match ph with
  | .start => (sh, .checked (lookupA uid sh.attendees))
  | .checked none =>
    ({ sh with attendees := mapSet sh.attendees uid sh.clock, clock := sh.clock + 1 },
     .finished "in")
  | .checked (some signin) =>
    let sh1 := { sh with attendees := mapDel sh.attendees uid }
    ({ sh1 with
      sessions := sh1.sessions ++ [⟨(memberD udb uid).id, signin, sh1.clock⟩],
      clock := sh1.clock + 1 },
     .finished "out")
  | .finished d => (sh, .finished d)

/-- The toggle as the specification demands it: presence check and
conditional mutation as one indivisible step under the writer lock. -/
def toggleAtomic (udb : List (Uid × Member)) (sh : Shared) (uid : Uid) :
    Shared × String :=
  match lookupA uid sh.attendees with
  | none =>
    ({ sh with attendees := mapSet sh.attendees uid sh.clock, clock := sh.clock + 1 },
     "in")
  | some signin =>
    let sh1 := { sh with attendees := mapDel sh.attendees uid }
    ({ sh1 with
      sessions := sh1.sessions ++ [⟨(memberD udb uid).id, signin, sh1.clock⟩],
      clock := sh1.clock + 1 },
     "out")

/-- Run two concurrent toggle requests under a schedule: `false` steps
thread 0, `true` steps thread 1. -/
def runToggles (udb : List (Uid × Member)) (sched : List Bool) (sh : Shared)
    (u0 u1 : Uid) (p0 p1 : Phase) : Shared × Phase × Phase :=
  match sched with
  | [] => (sh, p0, p1)
  | b :: rest =>
    if b then
      let s := toggleStep udb sh u1 p1
      runToggles udb rest s.1 u0 u1 p0 s.2
    else
      let s := toggleStep udb sh u0 p0
      runToggles udb rest s.1 u0 u1 s.2 p1

/-- Concrete member used by the example states: Alice with tag `U1`. -/
def alice : Member := ⟨1, "Alice", "U1", "111111111"⟩

/-- Concrete member used by the example states: Bob with tag `U2`. -/
def bob : Member := ⟨2, "Bob", "U2", "222222222"⟩

/-- A one-member cache, keyed by tag as `loadMembersIntoCache` builds it. -/
def udb1 : List (Uid × Member) := [("U1", alice)]

/-- Two attendees present, clock at tick 10: the state the sign-out-all
counterexample sweeps. -/
def stTwoPresent : ServerState :=
  ⟨[("U1", alice), ("U2", bob)], [], [("U1", 0), ("U2", 1)], [],
    some [("U1", 0), ("U2", 1)], 10⟩

/-- One attendee present with the snapshot file in sync, clock at tick 10:
the state the nightly sweep is run on. -/
def stOnePresent : ServerState :=
  ⟨udb1, [], [("U1", 3)], [], some [("U1", 3)], 10⟩

/-- No attendee present: the state in which the 4:00 AM timer commonly
fires. -/
def stNonePresent : ServerState := ⟨udb1, [], [], [], some [], 0⟩

/-- One attendee present, used to show the populated nightly path does
release the lock. -/
def stOnePresentB : ServerState := ⟨udb1, [], [("U1", 5)], [], some [("U1", 5)], 9⟩

/-- Fresh state with Alice registered and nobody present, used by the
sequential-toggle witness. -/
def stFresh : ServerState := ⟨udb1, [], [], [], none, 0⟩

/-- State with an empty member cache but someone present, used by the
unknown-tag witness. -/
def stNoMembers : ServerState := ⟨[], [], [("U1", 0)], [], none, 0⟩

theorem lookupA_mapSet_self (m : AttendeeMap) (k : Uid) (v : Time) :
    lookupA k (mapSet m k v) = some v := by
  induction m with
  | nil => simp [mapSet, lookupA]
  | cons p rest ih =>
    by_cases h : p.1 = k
    · simp [mapSet, lookupA, h]
    · simp [mapSet, lookupA, h, ih]

theorem lookupA_mapDel_self (m : AttendeeMap) (k : Uid) :
    lookupA k (mapDel m k) = none := by
  induction m with
  | nil => simp [mapDel, lookupA]
  | cons p rest ih =>
    by_cases h : p.1 = k
    · simp [mapDel, h, ih]
    · simp [mapDel, lookupA, h, ih]

theorem sweepSessions_eq (udb : List (Uid × Member)) (l : AttendeeMap) :
    ∀ (sessions : List Session) (c : Nat),
      sweepSessions udb sessions c l
        = (sessions ++ sweptIntervals udb c l, c + l.length) := by
  induction l with
  | nil => intro sessions c; simp [sweepSessions, sweptIntervals]
  | cons p rest ih =>
    intro sessions c
    obtain ⟨uid, signin⟩ := p
    rw [sweepSessions, sweptIntervals, ih]
    refine congrArg₂ Prod.mk (by simp) (by simp [List.length_cons]; omega)

theorem sweptIntervals_get (udb : List (Uid × Member)) (l : AttendeeMap) :
    ∀ (c : Nat) (i : Nat),
      (sweptIntervals udb c l).get? i
        = (l.get? i).map fun p => ⟨(memberD udb p.1).id, p.2, c + i⟩ := by
  induction l with
  | nil => intro c i; simp [sweptIntervals]
  | cons p rest ih =>
    intro c i
    obtain ⟨uid, signin⟩ := p
    cases i with
    | zero => simp [sweptIntervals]
    | succ j =>
      have h : c + (j + 1) = (c + 1) + j := by omega
      simp only [sweptIntervals, List.get?, ih, h]

theorem handleScan_signIn_proj (st : ServerState) (uid : Uid) (member : Member)
    (hm : lookupA uid st.userDB = some member)
    (ha : lookupA uid st.currentAttendees = none) :
    (handleScan st uid true true).2 = .statusIn ∧
    (handleScan st uid true true).1.currentAttendees
      = mapSet st.currentAttendees member.uid (st.clock + 1) ∧
    (handleScan st uid true true).1.userDB = st.userDB ∧
    (handleScan st uid true true).1.sessions = st.sessions ∧
    (handleScan st uid true true).1.clock = st.clock + 2 := by
  refine ⟨?_, ?_, ?_, ?_, ?_⟩ <;>
    simp [handleScan, performSignIn, saveCurrentAttendees, hm, ha]

theorem handleScan_signOut_proj (st : ServerState) (uid : Uid) (member : Member)
    (s : Time) (hm : lookupA uid st.userDB = some member)
    (ha : lookupA uid st.currentAttendees = some s) :
    (handleScan st uid true true).2 = .statusOut ∧
    (handleScan st uid true true).1.currentAttendees
      = mapDel st.currentAttendees member.uid ∧
    (handleScan st uid true true).1.sessions
      = st.sessions ++ [⟨member.id, s, st.clock + 1⟩] ∧
    (handleScan st uid true true).1.userDB = st.userDB := by
  refine ⟨?_, ?_, ?_, ?_⟩ <;>
    simp [handleScan, performSignOut, saveSessionToDB, saveCurrentAttendees, hm, ha]

theorem insertByTime_forall {p : ActiveAttendee → Prop} {a : ActiveAttendee}
    {l : List ActiveAttendee} (hpa : p a) (hl : ∀ x ∈ l, p x) :
    ∀ x ∈ insertByTime a l, p x := by
  induction l with
  | nil => intro x hx; simp [insertByTime] at hx; simpa [hx]
  | cons b rest ih =>
    intro x hx
    simp only [insertByTime] at hx
    by_cases h : a.signInTime ≤ b.signInTime
    · simp [h] at hx
      rcases hx with hx | hx | hx
      · simpa [hx]
      · exact hl x (by simp [hx])
      · exact hl x (by simp [hx])
    · simp [h] at hx
      rcases hx with hx | hx
      · exact hl x (by simp [hx])
      · exact ih (fun y hy => hl y (by simp [hy])) x hx

theorem pairwise_insertByTime (a : ActiveAttendee) (l : List ActiveAttendee)
    (hl : l.Pairwise fun u v => u.signInTime ≤ v.signInTime) :
    (insertByTime a l).Pairwise fun u v => u.signInTime ≤ v.signInTime := by
  induction l with
  | nil => simp [insertByTime]
  | cons b rest ih =>
    rw [List.pairwise_cons] at hl
    simp only [insertByTime]
    by_cases h : a.signInTime ≤ b.signInTime
    · simp only [h, if_true]
      rw [List.pairwise_cons]
      refine ⟨?_, List.pairwise_cons.mpr hl⟩
      intro x hx
      rcases List.mem_cons.mp hx with rfl | hx
      · exact h
      · exact Nat.le_trans h (hl.1 x hx)
    · simp only [h, if_false]
      rw [List.pairwise_cons]
      refine ⟨?_, ih hl.2⟩
      exact insertByTime_forall (Nat.le_of_not_le h) hl.1

theorem sortByTime_pairwise (l : List ActiveAttendee) :
    (sortByTime l).Pairwise fun u v => u.signInTime ≤ v.signInTime := by
  induction l with
  | nil => simp [sortByTime]
  | cons a rest ih => exact pairwise_insertByTime a _ ih

/-- C4: the nightly-cleanup loop body does NOT release the writer lock on
every path — when the 4:00 AM timer fires with zero attendees present the
body skips the branch containing the only `mu.Unlock()` and keeps the lock
held, while the populated path does release it. -/
theorem nightly_cleanup_lock_leak :
    (nightlyCleanupBody stNonePresent).lockHeld = true ∧
    (nightlyCleanupBody stOnePresentB).lockHeld = false :=
  ⟨rfl, rfl⟩

/-- C3: the nightly sweep mutates the attendee map (it empties it and
appends the session row) but leaves the snapshot file untouched, so the
snapshot is NOT rewritten after this successful mutation; the explicit
sign-in and sign-out-all paths, by contrast, do rewrite it. -/
theorem nightly_sweep_skips_snapshot :
    (nightlyCleanupBody stOnePresent).attendees = [] ∧
    (nightlyCleanupBody stOnePresent).sessions = [⟨1, 3, 10⟩] ∧
    (nightlyCleanupBody stOnePresent).snapshotFile = some [("U1", 3)] ∧
    (nightlyCleanupBody stOnePresent).snapshotFile
      ≠ some ((nightlyCleanupBody stOnePresent).attendees) ∧
    (performSignIn stOnePresent bob true).1.snapshotFile
      = some (performSignIn stOnePresent bob true).1.currentAttendees ∧
    (handleSignoutAll stOnePresent).1.snapshotFile
      = some ((handleSignoutAll stOnePresent).1.currentAttendees) := by
  refine ⟨rfl, rfl, rfl, by decide, rfl, rfl⟩

/-- C5 counterexample: a malformed snapshot file at startup is not fatal —
`main` logs a warning and the process continues starting, refuting the
claim that a malformed file prevents the process from starting. -/
theorem malformed_snapshot_not_fatal :
    (startupLoadAttendees .malformed []).fatal = false ∧
    (startupLoadAttendees .malformed []).warned = true :=
  ⟨rfl, rfl⟩

/-- C5 amended: a missing snapshot file is treated as empty state and no
error; a malformed file produces a load error that startup logs as a
warning and then continues with the in-memory map unchanged — it is never
fatal. -/
theorem startup_snapshot_load_spec (current : AttendeeMap) :
    startupLoadAttendees .missing current = ⟨current, false, false⟩ ∧
    (∀ m, startupLoadAttendees (.wellFormed m) current = ⟨m, false, false⟩) ∧
    startupLoadAttendees .malformed current = ⟨current, true, false⟩ :=
  ⟨rfl, fun _ => rfl, rfl⟩

/-- C2 counterexample: sweeping two attendees reads `time.Now()` afresh in
each loop iteration, so the two produced ClosedIntervals carry different
end times — there is no single sweep instant that every `end_time`
equals. -/
theorem signout_all_no_single_instant :
    ¬ ∃ t : Time, ∀ s ∈ (handleSignoutAll stTwoPresent).1.sessions,
      s.signoutTime = t := by
  intro hex
  obtain ⟨t, h⟩ := hex
  have h1 := h ⟨1, 0, 10⟩ (by decide)
  have h2 := h ⟨2, 1, 11⟩ (by decide)
  exact absurd (h1.trans h2.symm) (by decide)

/-- C2 amended: `handleSignoutAll` with N attendees present reports N and
leaves the map empty, and each previously-present identity yields exactly
one ClosedInterval that keeps its sign-in time and whose `end_time` is the
clock instant read during that identity's iteration of the sweep loop
(successive instants, not one common instant). -/
theorem signout_all_sweep_spec (st : ServerState) :
    (handleSignoutAll st).2 = st.currentAttendees.length ∧
    (handleSignoutAll st).1.currentAttendees = [] ∧
    (handleSignoutAll st).1.snapshotFile = some [] ∧
    (handleSignoutAll st).1.sessions
      = st.sessions ++ sweptIntervals st.userDB st.clock st.currentAttendees ∧
    (∀ i, (sweptIntervals st.userDB st.clock st.currentAttendees).get? i
      = (st.currentAttendees.get? i).map
          fun p => ⟨(memberD st.userDB p.1).id, p.2, st.clock + i⟩) := by
  refine ⟨rfl, rfl, rfl, ?_, fun i => sweptIntervals_get _ _ _ i⟩
  simp [handleSignoutAll, sweepSessions_eq]

/-- C6: a failed durable write never reverses an already-performed map
mutation — after `performSignIn` the uid is present with the sign-in tick
and after `performSignOut` it is absent, in each case identically whether
the session insert and the snapshot write succeeded or failed. -/
theorem persistence_error_keeps_mutation (st : ServerState) (member : Member)
    (signin : Time) (dbOk snapOk : Bool) :
    (performSignIn st member snapOk).1.currentAttendees
      = (performSignIn st member true).1.currentAttendees ∧
    (performSignIn st member snapOk).1.currentAttendees
      = mapSet st.currentAttendees member.uid st.clock ∧
    (performSignOut st member signin dbOk snapOk).1.currentAttendees
      = (performSignOut st member signin true true).1.currentAttendees ∧
    (performSignOut st member signin dbOk snapOk).1.currentAttendees
      = mapDel st.currentAttendees member.uid := by
  cases dbOk <;> cases snapOk <;> exact ⟨rfl, rfl, rfl, rfl⟩

/-- C10: the `/current` listing is ordered by non-decreasing sign-in time
(earliest arrival first) for every state of the attendee map. -/
theorem listPresent_sorted_by_start (st : ServerState) :
    (handleCurrent st).Pairwise fun a b => a.signInTime ≤ b.signInTime :=
  sortByTime_pairwise _

/-- C1: the toggle of `handleScan` is not one atomic check-then-act step —
the presence check runs under a read lock that is released before the
writer-locked mutation, so interleaving two toggles on the same absent tag
as check, check, act, act makes both report IN, lose the first sign-in
tick and append no session, whereas the atomic toggle the specification
demands reports IN then OUT and appends the closed interval in every
serialization. -/
theorem scan_toggle_check_act_race :
    runToggles udb1 [false, true, false, true] ⟨[], [], 0⟩ "U1" "U1" .start .start
      = (⟨[("U1", 1)], [], 2⟩, .finished "in", .finished "in") ∧
    toggleAtomic udb1 ⟨[], [], 0⟩ "U1" = (⟨[("U1", 0)], [], 1⟩, "in") ∧
    toggleAtomic udb1 (toggleAtomic udb1 ⟨[], [], 0⟩ "U1").1 "U1"
      = (⟨[], [⟨1, 0, 1⟩], 2⟩, "out") :=
  ⟨rfl, rfl, rfl⟩

/-- C7: starting from an absent known tag, two sequential scans report IN
then OUT; the second scan appends exactly one session whose start is the
tick the first scan stored (drawn while the first call ran, between its
entry clock and its exit clock) and afterwards the tag is no longer in the
map. -/
theorem toggle_twice_in_out (st : ServerState) (uid : Uid) (member : Member)
    (hm : lookupA uid st.userDB = some member)
    (ha : lookupA uid st.currentAttendees = none)
    (hkey : member.uid = uid) :
    (handleScan st uid true true).2 = .statusIn ∧
    lookupA uid (handleScan st uid true true).1.currentAttendees
      = some (st.clock + 1) ∧
    (handleScan st uid true true).1.clock = st.clock + 2 ∧
    (handleScan (handleScan st uid true true).1 uid true true).2 = .statusOut ∧
    (handleScan (handleScan st uid true true).1 uid true true).1.sessions
      = st.sessions ++ [⟨member.id, st.clock + 1, st.clock + 3⟩] ∧
    lookupA uid
      (handleScan (handleScan st uid true true).1 uid true true).1.currentAttendees
      = none := by
  obtain ⟨h1, h2, h3, h4, h5⟩ := handleScan_signIn_proj st uid member hm ha
  have hlook : lookupA uid (handleScan st uid true true).1.currentAttendees
      = some (st.clock + 1) := by
    rw [h2, hkey]; exact lookupA_mapSet_self _ _ _
  have hm1 : lookupA uid (handleScan st uid true true).1.userDB = some member := by
    rw [h3]; exact hm
  obtain ⟨g1, g2, g3, g4⟩ :=
    handleScan_signOut_proj (handleScan st uid true true).1 uid member
      (st.clock + 1) hm1 hlook
  refine ⟨h1, hlook, h5, g1, ?_, ?_⟩
  · rw [g3, h4, h5]
  · rw [g2, hkey]; exact lookupA_mapDel_self _ _

/-- C7 witness: the two-scan property evaluated on the fresh state with
Alice registered under tag `U1` and nobody present. -/
theorem toggle_twice_in_out_witness :
    (handleScan stFresh "U1" true true).2 = .statusIn ∧
    lookupA "U1" (handleScan stFresh "U1" true true).1.currentAttendees
      = some (stFresh.clock + 1) ∧
    (handleScan stFresh "U1" true true).1.clock = stFresh.clock + 2 ∧
    (handleScan (handleScan stFresh "U1" true true).1 "U1" true true).2
      = .statusOut ∧
    (handleScan (handleScan stFresh "U1" true true).1 "U1" true true).1.sessions
      = stFresh.sessions ++ [⟨alice.id, stFresh.clock + 1, stFresh.clock + 3⟩] ∧
    lookupA "U1"
      (handleScan (handleScan stFresh "U1" true true).1 "U1" true true).1.currentAttendees
      = none :=
  toggle_twice_in_out stFresh "U1" alice (by decide) (by decide) (by decide)

/-- C8: a scan with a tag that the member cache does not resolve answers
`unknown` (403) and leaves the attendee map — and the sessions table —
exactly as they were. -/
theorem unknown_uid_leaves_map (st : ServerState) (uid : Uid)
    (dbOk snapOk : Bool) (hu : lookupA uid st.userDB = none) :
    (handleScan st uid dbOk snapOk).2 = .unknown ∧
    (handleScan st uid dbOk snapOk).1.currentAttendees = st.currentAttendees ∧
    (handleScan st uid dbOk snapOk).1.sessions = st.sessions := by
  refine ⟨?_, ?_, ?_⟩ <;> simp [handleScan, hu]

/-- C8 witness: an unregistered tag scanned against a state with an empty
member cache and one attendee present. -/
theorem unknown_uid_leaves_map_witness :
    (handleScan stNoMembers "UX" true true).2 = .unknown ∧
    (handleScan stNoMembers "UX" true true).1.currentAttendees
      = stNoMembers.currentAttendees ∧
    (handleScan stNoMembers "UX" true true).1.sessions = stNoMembers.sessions :=
  unknown_uid_leaves_map stNoMembers "UX" true true (by decide)

/-- C9: deleting a member whose uid currently has an open interval answers
conflict (409) and removes nothing, and a delete can only reach the
removal branch when the uid is absent from the attendee map. -/
theorem member_delete_presence_guard (ms : List Member) (att : AttendeeMap)
    (id : Nat) (uid : Uid) (hf : findUidById ms id = some uid) :
    ((lookupA uid att).isSome →
      handleMemberDelete ms att id = (.conflict, ms)) ∧
    ((handleMemberDelete ms att id).1 = .deleted → lookupA uid att = none) := by
  constructor
  · intro h
    simp [handleMemberDelete, hf, h]
  · intro h
    by_cases hp : (lookupA uid att).isSome
    · simp [handleMemberDelete, hf, hp] at h
    · exact Option.not_isSome_iff_eq_none.mp hp

/-- C9 witness: deleting Alice (member id 1) while she is signed in is a
conflict that leaves the member table unchanged. -/
theorem member_delete_presence_guard_witness :
    handleMemberDelete [alice] [("U1", 5)] 1 = (.conflict, [alice]) :=
  (member_delete_presence_guard [alice] [("U1", 5)] 1 "U1" (by decide)).1 (by decide)
